import Mathlib

/-!
Shallow embedding of `confined_water/free_energy.py`.

The module computes spatial distributions of liquid atoms on a solid
interface from an MD trajectory.  External collaborators (MDAnalysis'
`pack_into_box`, the `utils.rotation_matrix` helper that lives outside the
analysed sources) are modelled as function parameters (`wrap`, `rotmat`).
Atom positions are 3-vectors over a linear ordered field; the slab
(two-periodic-direction) pipeline is generic and executable over `ℚ`,
while the tube (one-periodic-direction) pipeline, which uses `sqrt`,
`arccos`, `atan2` and `π`, is embedded over `ℝ`.

Python/numpy error behaviour (TypeError on `None` arithmetic, IndexError,
broadcast ValueError) is modelled with `Except NpError`; the number of
trajectory frames read before an error is tracked in `RunOutcome`.
-/

/-- Atom species occurring in the selection strings of the source
(`"name B N C Na Cl"`, `"name O H"`, `"name O"`). -/
inductive Species
  | B | N | C | Na | Cl | O | H | other
deriving DecidableEq

/-- A 3-dimensional position/vector (componentwise arithmetic via the
pointwise `Pi` instances). -/
abbrev Vec (α : Type) : Type := Fin 3 → α

/-- An atom of the MDAnalysis universe: its species name and its mass. -/
structure Atom (α : Type) where
  name : Species
  mass : α

/-- An MDAnalysis universe: a fixed atom table and a trajectory, each frame
holding one position per atom (aligned by index). -/
structure MDUniverse (α : Type) where
  atoms : List (Atom α)
  trajectory : List (List (Vec α))

/-- Errors raised by the Python/numpy runtime that the source can hit:
`typeErrorNone` models arithmetic with a missing (`None`) argument,
`indexOutOfBounds` models numpy/python index errors, `shapeMismatch`
models broadcast failures, `sliceStepZero` models a zero slice step. -/
inductive NpError
  | typeErrorNone
  | indexOutOfBounds
  | shapeMismatch
  | sliceStepZero
deriving DecidableEq

/-- Result of a pipeline run: how many trajectory frames were read
(entered by the frame loop) and either the two returned point sets
`(liquid_contact_2d, solid_2d)` or the runtime error that aborted the run. -/
structure RunOutcome (α : Type) where
  framesRead : ℕ
  result : Except NpError (List (α × α) × List (α × α))

section PyHelpers

variable {α β γ : Type}

/-- The Python list slice `l[s:e]` (for `0 ≤ s ≤ e`): elements `s, …, e-1`. -/
def pySlice (l : List β) (s e : ℕ) : List β := (l.drop s).take (e - s)

/-- The Python slice `l[::n]` for `n ≥ 1`: the elements whose index is a
multiple of `n`. -/
def everyNth (l : List β) (n : ℕ) : List β :=
  (l.enum.filter (fun p => p.1 % n == 0)).map (fun p => p.2)

/-- The position of atom `i` in a frame (out-of-range reads give the zero
vector; the pipelines only read valid indices on error-free paths). -/
def posOf [Zero α] (pos : List (Vec α)) (i : ℕ) : Vec α :=
  (pos.get? i).getD (fun _ => 0)

/-- Embeds `np.where(flat <= cutoff)` on a 1-d array: the (flattened) indices of
the entries that are `≤ cutoff`, counting from `i`. -/
def np_where_le [LE α] [DecidableRel (α := α) (· ≤ ·)] (cutoff : α) :
    List α → ℕ → List ℕ
  | [], _ => []
  | x :: rest, i =>
    if x ≤ cutoff then i :: np_where_le cutoff rest (i + 1)
    else np_where_le cutoff rest (i + 1)

/-- Embeds the numpy assignment of an `(S, k)` position block into an `(S, 2)` slot of
`solid_all`: `k = 2` assigns the two columns, `k = 1` broadcasts the single
column into both, any other `k` raises a broadcast error. -/
def np_broadcast_rows2 [Zero α] (rows : List (List α)) (k : ℕ) :
    Except NpError (List (α × α)) :=
  if k = 2 then .ok (rows.map (fun r => (r.getD 0 0, r.getD 1 0)))
  else if k = 1 then .ok (rows.map (fun r => (r.getD 0 0, r.getD 0 0)))
  else .error .shapeMismatch

/-- Embeds `np.column_stack((xs, ys))` on two 1-d arrays: pairs them up, raising a
shape error when the lengths disagree. -/
def np_column_stack (xs ys : List α) : Option (List (α × α)) :=
  if xs.length = ys.length then some (xs.zip ys) else none

end PyHelpers

section DataModel

variable {α : Type} [LinearOrderedField α]

/-- Mass of atom `i` (0 for an out-of-range index). -/
def massOf (u : MDUniverse α) (i : ℕ) : α :=
  ((u.atoms.get? i).map Atom.mass).getD 0

/-- Embeds `universe.select_atoms` by species names: the indices of the matching
atoms, in atom order. -/
def select_atoms (u : MDUniverse α) (names : List Species) : List ℕ :=
  (List.range u.atoms.length).filter
    (fun i => ((u.atoms.get? i).map (fun a => names.contains a.name)).getD false)

/-- Indices of the solid atoms: `select_atoms("name B N C Na Cl")`. -/
def solidIdx (u : MDUniverse α) : List ℕ :=
  select_atoms u [.B, .N, .C, .Na, .Cl]

/-- Indices of the liquid atoms of the tube pipeline:
`select_atoms("name O H")`. -/
def liquidTubeIdx (u : MDUniverse α) : List ℕ := select_atoms u [.O, .H]

/-- Indices of the liquid atoms of the slab pipeline:
`select_atoms("name O")`. -/
def liquidSlabIdx (u : MDUniverse α) : List ℕ := select_atoms u [.O]

/-- All atom indices (`universe.atoms`). -/
def allIdx (u : MDUniverse α) : List ℕ := List.range u.atoms.length

/-- Mass-weighted `center_of_mass` of the atom group `g` over the position
list `pos`. -/
def center_of_mass (u : MDUniverse α) (g : List ℕ) (pos : List (Vec α)) :
    Vec α :=
  fun k =>
    (g.map (fun i => massOf u i * posOf pos i k)).sum /
      (g.map (fun i => massOf u i)).sum

/-- Embeds `not_pbc_indices = list(set(pbc_indices) ^ set([0,1,2]))`: the confined
axes, ascending. -/
def not_pbc_indices (pbc : List (Fin 3)) : List (Fin 3) :=
  ([0, 1, 2] : List (Fin 3)).filter (fun j => !(pbc.contains j))

/-- Embeds `periodic_vector`: zeros except `1` on the periodic axes. -/
def periodic_vector (pbc : List (Fin 3)) : Vec α :=
  fun k => if pbc.contains k then 1 else 0

end DataModel

section SlabPipeline

variable {α : Type} [LinearOrderedField α]

/-- Slab pipeline, per-frame translation (source line 285):
`translation_from_frame0 = universe.atoms.center_of_mass() - anchor_coordinates`,
computed on the already-wrapped current positions, with the whole-system
anchor. -/
def slab_translation_from_frame0 (u : MDUniverse α) (anchor : Vec α)
    (wrappedPos : List (Vec α)) : Vec α :=
  center_of_mass u (allIdx u) wrappedPos - anchor

/-- Slab pipeline, per-frame normalized positions (source lines 281-289):
wrap, subtract the translation, wrap again. -/
def slab_normalized (wrap : Vec α → Vec α) (u : MDUniverse α) (anchor : Vec α)
    (fp : List (Vec α)) : List (Vec α) :=
  let wrapped := fp.map wrap
  let t := slab_translation_from_frame0 u anchor wrapped
  (wrapped.map (fun p => p - t)).map wrap

/-- Slab pipeline, contact-layer selection (source lines 294-302): flatten
the signed confined-axis offsets of the liquid atoms from the solid centre
of mass, take `np.where(flat <= cutoff)`, and index the liquid atom group
by those flattened indices (an index `≥` the number of liquid atoms is a
numpy IndexError).  Returns the selected liquid positions. -/
def slab_liquid_selection (cutoff : α) (npc : List (Fin 3))
    (liquidPos : List (Vec α)) (solidCOM : Vec α) :
    Except NpError (List (Vec α)) :=
  let flat := (liquidPos.map (fun p => npc.map (fun j => p j - solidCOM j))).join
  let idxs := np_where_le cutoff flat 0
  if idxs.all (fun i => decide (i < liquidPos.length)) then
    .ok (idxs.map (fun i => posOf liquidPos i))
  else .error .indexOutOfBounds

/-- Slab pipeline, one loop iteration (source lines 280-314): normalize the
frame, select the contact-layer liquid atoms, read the two coordinate
columns `[:, pbc_indices[0]]` / `[:, pbc_indices[1]]` of the already
`[:, pbc_indices]`-sliced selection (the double indexing of the source),
and store the solid positions into `solid_all[count_frames]` (an index
check against the preallocated `size`, then a broadcast into two columns).
Returns the values appended to `liquid_contact_coord1`/`coord2` and the
rows written into `solid_all`. -/
def slabFrameProcess (wrap : Vec α → Vec α) (u : MDUniverse α) (cutoff : α)
    (pbc : List (Fin 3)) (anchor : Vec α) (size count : ℕ)
    (fp : List (Vec α)) : Except NpError (List α × List α × List (α × α)) :=
  let pos := slab_normalized wrap u anchor fp
  let solidCOM := center_of_mass u (solidIdx u) pos
  let liquidPos := (liquidSlabIdx u).map (posOf pos)
  match slab_liquid_selection cutoff (not_pbc_indices pbc) liquidPos solidCOM with
  | .error e => .error e
  | .ok selectedPos =>
    let selectedRows := selectedPos.map (fun p => pbc.map (fun ax => p ax))
    match pbc.get? 0 with
    | none => .error .indexOutOfBounds
    | some i0 =>
      if (i0 : ℕ) < pbc.length then
        let c1 := selectedRows.map (fun r => r.getD (i0 : ℕ) 0)
        match pbc.get? 1 with
        | none => .error .indexOutOfBounds
        | some i1 =>
          if (i1 : ℕ) < pbc.length then
            let c2 := selectedRows.map (fun r => r.getD (i1 : ℕ) 0)
            if count < size then
              match np_broadcast_rows2
                  ((solidIdx u).map (fun i => pbc.map (fun ax => posOf pos i ax)))
                  pbc.length with
              | .error e => .error e
              | .ok srows => .ok (c1, c2, srows)
            else .error .indexOutOfBounds
          else .error .indexOutOfBounds
      else .error .indexOutOfBounds

/-- Slab pipeline, the frame loop: processes the selected frames in order,
counting the frames read; collects the appended liquid coordinates and the
written `solid_all` blocks. -/
def slabLoop (wrap : Vec α → Vec α) (u : MDUniverse α) (cutoff : α)
    (pbc : List (Fin 3)) (anchor : Vec α) (size : ℕ) :
    List (List (Vec α)) → ℕ →
    ℕ × Except NpError (List α × List α × List (List (α × α)))
  | [], _ => (0, .ok ([], [], []))
  | fp :: rest, count =>
    match slabFrameProcess wrap u cutoff pbc anchor size count fp with
    | .error e => (1, .error e)
    | .ok (c1, c2, srows) =>
      match slabLoop wrap u cutoff pbc anchor size rest (count + 1) with
      | (n, .error e) => (n + 1, .error e)
      | (n, .ok (d1, d2, blocks)) =>
        (n + 1, .ok (c1 ++ d1, c2 ++ d2, srows :: blocks))

/-- Embeds `_compute_distribution_for_system_with_two_periodic_directions`
(source lines 227-319).  The anchor is the whole-system centre of mass of
the initially loaded frame after the pre-loop wrap; `solid_all` is
preallocated with `int((end_frame - start_frame)/frame_frequency)` frame
slots (unwritten slots stay zero and are still concatenated into the
returned array). -/
def compute_distribution_for_system_with_two_periodic_directions
    (wrap : Vec α → Vec α) (u : MDUniverse α) (cutoff : α)
    (pbc : List (Fin 3)) (startF endF freq : ℕ) : RunOutcome α :=
  let initPos := u.trajectory.headD []
  let anchor := center_of_mass u (allIdx u) (initPos.map wrap)
  let size := (endF - startF) / freq
  if freq = 0 then ⟨0, .error .sliceStepZero⟩
  else
    let frames := everyNth (pySlice u.trajectory startF endF) freq
    match slabLoop wrap u cutoff pbc anchor size frames 0 with
    | (n, .error e) => ⟨n, .error e⟩
    | (n, .ok (c1, c2, blocks)) =>
      let s : ℕ := (solidIdx u).length
      let solidAll :=
        (blocks ++ List.replicate (size - blocks.length)
          (List.replicate s ((0 : α), (0 : α)))).join
      ⟨n, .ok (c1.zip c2, solidAll)⟩

end SlabPipeline

section TubePipeline

/-- Embeds `np.arctan2 y x` as the argument of the complex number
`x + y·i`: range `(-π, π]`, with `atan2 0 0 = 0` as in numpy. -/
noncomputable def atan2 (y x : ℝ) : ℝ := Complex.arg ⟨x, y⟩

/-- Embeds `np.linalg.norm` of the components of `v` along the axes in `npc`. -/
noncomputable def normOver (npc : List (Fin 3)) (v : Vec ℝ) : ℝ :=
  Real.sqrt ((npc.map (fun j => v j ^ 2)).sum)

/-- Embeds `_get_atom_ids_on_same_tube_axis` (source lines 322-343): argsort
the solid atoms by confined-axes distance from solid atom 0 and keep the
first `2 * tube_length_in_unit_cells` indices.  The reference
`solid_atoms.positions[0]` (line 337) raises IndexError on an empty solid
group, before the slice bound `2 * tube_length_in_unit_cells` (line 343)
raises its TypeError when the tube length is missing (`None`). -/
noncomputable def get_atom_ids_on_same_tube_axis (solidPos : List (Vec ℝ))
    (tubeLen : Option ℕ) (npc : List (Fin 3)) : Except NpError (List ℕ) :=
  match solidPos with
  | [] => .error .indexOutOfBounds
  | p0 :: _ =>
    let ids := (List.range solidPos.length).mergeSort
      (fun i j =>
        decide (normOver npc (posOf solidPos i - p0) ≤
          normOver npc (posOf solidPos j - p0)))
    match tubeLen with
    | none => .error .typeErrorNone
    | some L => .ok (ids.take (2 * L))

/-- The `normed_dot_product` of source lines 143-151:
`np.clip(np.dot(solid_axis, [1,0]) / np.linalg.norm(solid_axis), -1, 1)`.
IEEE floating point returns NaN for the `0/0` of a zero-magnitude axis and
`np.clip` propagates it; the NaN outcome is modelled as `none`. -/
noncomputable def normed_dot_product (a : ℝ × ℝ) : Option ℝ :=
  if Real.sqrt (a.1 ^ 2 + a.2 ^ 2) = 0 then none
  else some (min 1 (max (-1) (a.1 / Real.sqrt (a.1 ^ 2 + a.2 ^ 2))))

/-- Embeds `angle_anchor_first_axis` (source lines 155-157): `arccos` of the
normed dot product, negated when the axis' second confined component is
positive.  `arccos NaN = NaN`, so the NaN (`none`) outcome propagates. -/
noncomputable def angle_anchor_first_axis (a : ℝ × ℝ) : Option ℝ :=
  (normed_dot_product a).map
    (fun d => if a.2 ≤ 0 then Real.arccos d else -Real.arccos d)

/-- Total-function version of the rotation angle used inside the frame
loop embedding.  It agrees with `angle_anchor_first_axis` whenever the
axis is non-degenerate; for the zero axis (where IEEE arithmetic yields
NaN and `angle_anchor_first_axis` is `none`) it returns the junk value
that Lean's `0/0 = 0` convention produces.  No theorem about pipeline
values relies on that degenerate case; the NaN behaviour itself is
analysed on `angle_anchor_first_axis`. -/
noncomputable def rotation_angle_total (a : ℝ × ℝ) : ℝ :=
  let d := min 1 (max (-1) (a.1 / Real.sqrt (a.1 ^ 2 + a.2 ^ 2)))
  if a.2 ≤ 0 then Real.arccos d else -Real.arccos d

/-- Embeds `solid_axis` (source lines 137-140): mean of the positions of the
anchor-rotation atoms over the two confined axes. -/
noncomputable def solid_axis (solidPos : List (Vec ℝ)) (ids : List ℕ)
    (npc : List (Fin 3)) : ℝ × ℝ :=
  let pts := ids.map (fun i => posOf solidPos i)
  ((pts.map (fun p => p (npc.getD 0 0))).sum / (pts.length : ℝ),
   (pts.map (fun p => p (npc.getD 1 0))).sum / (pts.length : ℝ))

/-- Tube pipeline, per-frame translation (source line 127):
`translation_from_frame0 = solid_atoms.center_of_mass() - anchor_coordinates`,
computed on the raw (unwrapped) current frame positions, with the
solid-group anchor. -/
noncomputable def tube_translation_from_frame0 (u : MDUniverse ℝ)
    (anchor : Vec ℝ) (fp : List (Vec ℝ)) : Vec ℝ :=
  center_of_mass u (solidIdx u) fp - anchor

/-- Tube pipeline, per-frame normalization (source lines 127-169):
subtract the translation, recentre on the whole-system centre of mass,
rotate by the anchor angle about the periodic axis (`utils.rotation_matrix`
is the collaborator `rotmat`), translate back, and wrap
(`pack_into_box`, collaborator `wrap`) as the final step.  No wrap is
applied before the translation (source line 92 is commented out). -/
noncomputable def tubeNormalize (wrap : Vec ℝ → Vec ℝ)
    (rotmat : Vec ℝ → ℝ → Vec ℝ → Vec ℝ) (u : MDUniverse ℝ)
    (anchor : Vec ℝ) (anchorIds : List ℕ) (pbc : List (Fin 3))
    (fp : List (Vec ℝ)) : List (Vec ℝ) :=
  let t := tube_translation_from_frame0 u anchor fp
  let p1 := fp.map (fun p => p - t)
  let com := center_of_mass u (allIdx u) p1
  let p2 := p1.map (fun p => p - com)
  let ax := solid_axis ((solidIdx u).map (posOf p2)) anchorIds (not_pbc_indices pbc)
  let ang := rotation_angle_total ax
  let p3 := p2.map (rotmat (periodic_vector pbc) ang)
  let p4 := p3.map (fun p => p + com)
  p4.map wrap

/-- Tube pipeline, contact-layer selection (source lines 174-183): the
offsets of the liquid atoms from the solid centre of mass whose
confined-axes Euclidean norm is `≥ spatial_extent_contact_layer` (the
`np.where` over the per-atom norms selects exactly those rows of the
offset array). -/
noncomputable def tube_liquid_selection (cutoff : ℝ) (npc : List (Fin 3))
    (liquidPos : List (Vec ℝ)) (solidCOM : Vec ℝ) : List (Vec ℝ) :=
  (liquidPos.map (fun p => p - solidCOM)).filter
    (fun v => decide (cutoff ≤ normOver npc v))

/-- Embeds `angular_component` (source lines 200-202 and 214-216): the expansion
of the `atan2` angle onto the opened tube,
`tube_circumference * (angle + π) / (2π)`. -/
noncomputable def angular_component (circ : ℝ) (npc : List (Fin 3))
    (v : Vec ℝ) : ℝ :=
  circ * (atan2 (v (npc.getD 1 0)) (v (npc.getD 0 0)) + Real.pi) /
    (2 * Real.pi)

/-- The four per-frame coordinate batches of the tube pipeline: values
appended to `liquid_contact_coord1/2` and `solid_coord1/2`. -/
structure TubeFrameOut where
  lc1 : List ℝ
  lc2 : List ℝ
  sc1 : List ℝ
  sc2 : List ℝ

/-- Tube pipeline, per-frame projection and classification (source lines
171-218), applied to the already-normalized positions: select the liquid
contact offsets, record their periodic coordinate
(`offset[pbc] + solid_COM[pbc]`, flattened by `np.append`) and angular
component, and the solid atoms' periodic positions and angular
components. -/
noncomputable def tubeProject (u : MDUniverse ℝ) (cutoff circ : ℝ)
    (pbc : List (Fin 3)) (pos : List (Vec ℝ)) : TubeFrameOut :=
  let solidCOM := center_of_mass u (solidIdx u) pos
  let liquidPos := (liquidTubeIdx u).map (posOf pos)
  let npc := not_pbc_indices pbc
  let sel := tube_liquid_selection cutoff npc liquidPos solidCOM
  let solidPos := (solidIdx u).map (posOf pos)
  { lc1 := (sel.map (fun v => pbc.map (fun ax => v ax + solidCOM ax))).join
    lc2 := sel.map (fun v => angular_component circ npc v)
    sc1 := (solidPos.map (fun q => pbc.map (fun ax => q ax))).join
    sc2 := solidPos.map (fun q => angular_component circ npc (q - solidCOM)) }

/-- Tube pipeline, the frame loop: normalize then project each selected
frame, concatenating the four coordinate accumulators in frame order. -/
noncomputable def tubeLoop (wrap : Vec ℝ → Vec ℝ)
    (rotmat : Vec ℝ → ℝ → Vec ℝ → Vec ℝ) (u : MDUniverse ℝ)
    (cutoff circ : ℝ) (anchor : Vec ℝ) (anchorIds : List ℕ)
    (pbc : List (Fin 3)) : List (List (Vec ℝ)) → TubeFrameOut
  | [] => ⟨[], [], [], []⟩
  | fp :: rest =>
    let pos := tubeNormalize wrap rotmat u anchor anchorIds pbc fp
    let o := tubeProject u cutoff circ pbc pos
    let r := tubeLoop wrap rotmat u cutoff circ anchor anchorIds pbc rest
    ⟨o.lc1 ++ r.lc1, o.lc2 ++ r.lc2, o.sc1 ++ r.sc1, o.sc2 ++ r.sc2⟩

/-- Embeds `_compute_distribution_for_system_with_one_periodic_direction`
(source lines 61-224).  The anchor is the solid centre of mass of the
initially loaded frame, computed on unwrapped positions (the pre-loop
wrap is commented out in the source).  Before the frame loop,
`_get_atom_ids_on_same_tube_axis` (line 102) raises IndexError on an
empty solid group (line 337) or a TypeError if
`tube_length_in_unit_cells` is missing (line 343), and a missing
`tube_radius` raises a TypeError at `2 * np.pi * tube_radius`
(line 107).  The final `np.column_stack` calls are modelled by
`np_column_stack`. -/
noncomputable def compute_distribution_for_system_with_one_periodic_direction
    (wrap : Vec ℝ → Vec ℝ) (rotmat : Vec ℝ → ℝ → Vec ℝ → Vec ℝ)
    (u : MDUniverse ℝ) (cutoff : ℝ) (radius : Option ℝ)
    (tubeLen : Option ℕ) (pbc : List (Fin 3)) (startF endF freq : ℕ) :
    RunOutcome ℝ :=
  let npc := not_pbc_indices pbc
  let initPos := u.trajectory.headD []
  let anchor := center_of_mass u (solidIdx u) initPos
  match get_atom_ids_on_same_tube_axis ((solidIdx u).map (posOf initPos))
      tubeLen npc with
  | .error e => ⟨0, .error e⟩
  | .ok anchorIds =>
    match radius with
    | none => ⟨0, .error .typeErrorNone⟩
    | some r =>
      if freq = 0 then ⟨0, .error .sliceStepZero⟩
      else
        let circ := 2 * Real.pi * r
        let frames := everyNth (pySlice u.trajectory startF endF) freq
        let o := tubeLoop wrap rotmat u cutoff circ anchor anchorIds pbc frames
        match np_column_stack o.lc1 o.lc2, np_column_stack o.sc1 o.sc2 with
        | some liquid2d, some solid2d =>
          ⟨frames.length, .ok (liquid2d, solid2d)⟩
        | _, _ => ⟨frames.length, .error .shapeMismatch⟩

/-- Embeds `compute_spatial_distribution_of_atoms_on_interface` (source lines
9-58): dispatch on `len(pbc_indices) == 1` to the tube pipeline, otherwise
(any other length, with no validation) to the slab pipeline. -/
noncomputable def compute_spatial_distribution_of_atoms_on_interface
    (wrap : Vec ℝ → Vec ℝ) (rotmat : Vec ℝ → ℝ → Vec ℝ → Vec ℝ)
    (u : MDUniverse ℝ) (cutoff : ℝ) (pbc : List (Fin 3))
    (startF endF freq : ℕ) (radius : Option ℝ) (tubeLen : Option ℕ) :
    RunOutcome ℝ :=
  if pbc.length = 1 then
    compute_distribution_for_system_with_one_periodic_direction
      wrap rotmat u cutoff radius tubeLen pbc startF endF freq
  else
    compute_distribution_for_system_with_two_periodic_directions
      wrap u cutoff pbc startF endF freq

end TubePipeline

section Helpers

theorem list_sum_map_sub {α β : Type} [AddCommGroup α] (l : List β)
    (f g : β → α) :
    (l.map (fun x => f x - g x)).sum = (l.map f).sum - (l.map g).sum := by
  induction l with
  | nil => simp
  | cons a t ih => simp only [List.map_cons, List.sum_cons, ih]; abel

theorem list_join_map_singleton {β γ : Type} (l : List β) (f : β → γ) :
    (l.map (fun x => [f x])).join = l.map f := by
  induction l with
  | nil => rfl
  | cons a t ih => simp [ih]

theorem np_where_le_lt {α : Type} [LinearOrder α] (c : α) :
    ∀ (l : List α) (n : ℕ), ∀ i ∈ np_where_le c l n, i < n + l.length := by
  intro l
  induction l with
  | nil => intro n i hi; simp [np_where_le] at hi
  | cons x rest ih =>
    intro n i hi
    simp only [List.length_cons]
    by_cases hx : x ≤ c
    · simp only [np_where_le, if_pos hx, List.mem_cons] at hi
      rcases hi with rfl | hi
      · omega
      · have := ih (n + 1) i hi
        omega
    · simp only [np_where_le, if_neg hx] at hi
      have := ih (n + 1) i hi
      omega

theorem np_where_le_map_posOf {α : Type} [LinearOrderedField α] (c : α)
    (g : Vec α → α) :
    ∀ (l big : List (Vec α)) (n : ℕ), big.drop n = l →
      (np_where_le c (l.map g) n).map (fun i => posOf big i)
        = l.filter (fun p => decide (g p ≤ c)) := by
  intro l
  induction l with
  | nil => intro big n _; simp [np_where_le]
  | cons p rest ih =>
    intro big n hdrop
    have hget : big.get? n = some p := by
      have h0 : (big.drop n).get? 0 = some p := by rw [hdrop]; rfl
      rwa [List.get?_drop, Nat.add_zero] at h0
    have hrest : big.drop (n + 1) = rest := by
      have h1 : (big.drop n).drop 1 = rest := by rw [hdrop]; rfl
      rw [List.drop_drop] at h1
      exact h1
    have hposn : posOf big n = p := by
      simp only [posOf, hget, Option.getD_some]
    by_cases hp : g p ≤ c
    · rw [List.map_cons,
        show np_where_le c (g p :: rest.map g) n
            = n :: np_where_le c (rest.map g) (n + 1) by
          simp [np_where_le, hp],
        List.map_cons, hposn, ih big (n + 1) hrest,
        List.filter_cons_of_pos (by simpa using hp)]
    · rw [List.map_cons,
        show np_where_le c (g p :: rest.map g) n
            = np_where_le c (rest.map g) (n + 1) by
          simp [np_where_le, hp],
        ih big (n + 1) hrest,
        List.filter_cons_of_neg (by simpa using hp)]

theorem select_atoms_mem_lt {α : Type} [LinearOrderedField α]
    (u : MDUniverse α) (names : List Species) :
    ∀ i ∈ select_atoms u names, i < u.atoms.length := by
  intro i hi
  have := List.mem_filter.mp hi
  exact List.mem_range.mp this.1

theorem list_sum_map_mul_const {α β : Type} [CommRing α] (l : List β)
    (f : β → α) (c : α) :
    (l.map (fun x => f x * c)).sum = (l.map f).sum * c := by
  induction l with
  | nil => simp
  | cons a t ih => simp only [List.map_cons, List.sum_cons, ih]; ring

theorem center_of_mass_shift {α : Type} [LinearOrderedField α]
    (u : MDUniverse α) (g : List ℕ) (pos : List (Vec α)) (t : Vec α)
    (hg : ∀ i ∈ g, i < pos.length)
    (hm : (g.map (fun i => massOf u i)).sum ≠ 0) :
    center_of_mass u g (pos.map (fun p => p - t))
      = center_of_mass u g pos - t := by
  funext k
  show (g.map (fun i => massOf u i * posOf (pos.map (fun p => p - t)) i k)).sum /
      (g.map (fun i => massOf u i)).sum = _
  have hstep : (g.map (fun i => massOf u i * posOf (pos.map (fun p => p - t)) i k))
      = g.map (fun i => massOf u i * posOf pos i k - (fun i => massOf u i * t k) i) := by
    apply List.map_congr_left
    intro i hi
    have hlt := hg i hi
    have hmapped : (pos.map (fun p => p - t)).get? i = some (pos.get ⟨i, hlt⟩ - t) := by
      rw [List.get?_map, List.get?_eq_get hlt]
      rfl
    have hpos : pos.get? i = some (pos.get ⟨i, hlt⟩) := List.get?_eq_get hlt
    simp only [posOf, hmapped, hpos, Option.getD_some]
    show massOf u i * (pos.get ⟨i, hlt⟩ k - t k) = _
    ring
  rw [hstep, list_sum_map_sub,
    show (g.map (fun i => massOf u i * t k)).sum
        = (g.map (fun i => massOf u i)).sum * t k from
      list_sum_map_mul_const g (fun i => massOf u i) (t k),
    sub_div, mul_comm ((g.map (fun i => massOf u i)).sum) (t k),
    mul_div_assoc, div_self hm, mul_one]
  rfl

theorem list_filter_map_comm {β γ : Type} (f : β → γ) (p : γ → Bool) :
    ∀ l : List β, (l.map f).filter p = (l.filter (fun x => p (f x))).map f := by
  intro l
  induction l with
  | nil => rfl
  | cons a t ih =>
    by_cases h : p (f a)
    · simp [List.filter_cons, h, ih]
    · simp [List.filter_cons, h, ih]

end Helpers

section Fixtures

/-- A one-solid-atom (carbon) universe over `ℚ` with three frames, the atom
sitting at the origin, then at `(1,1,1)`, then at `(2,2,2)`. -/
def uq1 : MDUniverse ℚ :=
  ⟨[⟨.C, 12⟩], [[fun _ => 0], [fun _ => 1], [fun _ => 2]]⟩

/-- A carbon + oxygen universe over `ℚ` with two frames; between the frames
the oxygen moves 4 along the x axis while the carbon stays at the origin. -/
def uq2 : MDUniverse ℚ :=
  ⟨[⟨.C, 12⟩, ⟨.O, 16⟩],
   [[fun _ => 0, fun _ => 0], [fun _ => 0, fun k => if k = 0 then 4 else 0]]⟩

/-- A one-solid-atom (carbon) universe over `ℝ` with a single frame. -/
def ur1 : MDUniverse ℝ := ⟨[⟨.C, 12⟩], [[fun _ => 0]]⟩

end Fixtures

/-- Claim C1 (amended): a tube call (`len(pbc_indices) == 1`) with a missing
`tube_radius` or `tube_length_in_unit_cells` fails (with a Python
`TypeError` from `None` arithmetic, not a dedicated configuration check)
before any trajectory frame is read and returns no output; calls with any
other `pbc_indices` length (including 0 and 3) undergo no validation at
all and are dispatched directly to the slab pipeline. -/
theorem C1_missing_tube_params_fail_fast
    (wrap : Vec ℝ → Vec ℝ) (rotmat : Vec ℝ → ℝ → Vec ℝ → Vec ℝ)
    (u : MDUniverse ℝ) (cutoff : ℝ) (pbc : List (Fin 3)) (s e f : ℕ)
    (radius : Option ℝ) (tubeLen : Option ℕ)
    (h1 : pbc.length = 1) (h2 : radius = none ∨ tubeLen = none) :
    (compute_spatial_distribution_of_atoms_on_interface wrap rotmat u cutoff
        pbc s e f radius tubeLen).framesRead = 0
    ∧ (∃ err, (compute_spatial_distribution_of_atoms_on_interface wrap rotmat
        u cutoff pbc s e f radius tubeLen).result = .error err)
    ∧ (∀ pbc2 : List (Fin 3), pbc2.length ≠ 1 →
        compute_spatial_distribution_of_atoms_on_interface wrap rotmat u
          cutoff pbc2 s e f radius tubeLen
          = compute_distribution_for_system_with_two_periodic_directions wrap
              u cutoff pbc2 s e f) := by
  have hkey : ∃ err, compute_distribution_for_system_with_one_periodic_direction
      wrap rotmat u cutoff radius tubeLen pbc s e f
      = ⟨0, .error err⟩ := by
    simp only [compute_distribution_for_system_with_one_periodic_direction]
    cases hxs : List.map (posOf (u.trajectory.headD [])) (solidIdx u) with
    | nil => exact ⟨.indexOutOfBounds, rfl⟩
    | cons p0 rest =>
      cases tubeLen with
      | none => exact ⟨.typeErrorNone, rfl⟩
      | some L =>
        cases radius with
        | none => exact ⟨.typeErrorNone, rfl⟩
        | some r => rcases h2 with h | h <;> simp at h
  obtain ⟨err, hkey⟩ := hkey
  refine ⟨?_, ?_, ?_⟩
  · unfold compute_spatial_distribution_of_atoms_on_interface
    rw [if_pos h1, hkey]
  · unfold compute_spatial_distribution_of_atoms_on_interface
    rw [if_pos h1, hkey]
    exact ⟨err, rfl⟩
  · intro pbc2 hne
    unfold compute_spatial_distribution_of_atoms_on_interface
    rw [if_neg hne]

/-- Witness for C1: a concrete tube call (`pbc_indices = [0]`) with both
tube parameters missing. -/
theorem C1_missing_tube_params_fail_fast_witness :
    ([(0 : Fin 3)].length = 1)
    ∧ ((compute_spatial_distribution_of_atoms_on_interface (fun p => p)
          (fun _ _ p => p) ur1 1 [0] 0 1 1 none none).framesRead = 0
      ∧ (∃ err, (compute_spatial_distribution_of_atoms_on_interface
          (fun p => p) (fun _ _ p => p) ur1 1 [0] 0 1 1 none none).result
            = .error err)
      ∧ (∀ pbc2 : List (Fin 3), pbc2.length ≠ 1 →
          compute_spatial_distribution_of_atoms_on_interface (fun p => p)
            (fun _ _ p => p) ur1 1 pbc2 0 1 1 none none
            = compute_distribution_for_system_with_two_periodic_directions
                (fun p => p) ur1 1 pbc2 0 1 1)) :=
  ⟨rfl, C1_missing_tube_params_fail_fast (fun p => p) (fun _ _ p => p) ur1 1
    [0] 0 1 1 none none rfl (Or.inl rfl)⟩

/-- Claim C1 (counterexample): calling the entry point with `pbc_indices` of
length 3 raises no configuration error before the trajectory is touched —
the slab pipeline starts, reads the first frame, and only then aborts with
a numpy broadcast (shape) error, contradicting the claimed fail-fast
validation. -/
theorem C1_counterexample :
    (compute_spatial_distribution_of_atoms_on_interface (fun p => p)
        (fun _ _ p => p) ur1 1 [0, 1, 2] 0 1 1 none none).framesRead = 1
    ∧ (compute_spatial_distribution_of_atoms_on_interface (fun p => p)
        (fun _ _ p => p) ur1 1 [0, 1, 2] 0 1 1 none none).result
      = .error .shapeMismatch :=
  ⟨rfl, rfl⟩

/-- Claim C5: evaluating the slab pipeline with the valid periodic axes
`[0, 2]` on a one-frame universe: the double indexing
`positions[:, pbc_indices][:, pbc_indices[1]]` asks for column 2 of a
2-column array, so the run aborts with an index error during the first
frame instead of completing with the raw axis-0/axis-2 components. -/
theorem C5_pbc02_index_error :
    (compute_distribution_for_system_with_two_periodic_directions
        (fun p => p) uq1 1 [0, 2] 0 1 1).framesRead = 1
    ∧ (compute_distribution_for_system_with_two_periodic_directions
        (fun p => p) uq1 1 [0, 2] 0 1 1).result = .error .indexOutOfBounds :=
  ⟨rfl, rfl⟩

/-- Claim C6: the slab run over `[0, 3)` with stride 2 on a 3-frame,
one-solid-atom universe: the slice yields `F = 2` frames but `solid_all`
is preallocated with `int(3/2) = 1` frame slots, so the second yielded
frame hits an out-of-bounds write and the call aborts instead of
completing with `F × S = 2` solid rows. -/
theorem C6_non_divisible_range_index_error :
    (everyNth (pySlice uq1.trajectory 0 3) 2).length = 2
    ∧ (solidIdx uq1).length = 1
    ∧ (compute_distribution_for_system_with_two_periodic_directions
        (fun p => p) uq1 1 [0, 1] 0 3 2).framesRead = 2
    ∧ (compute_distribution_for_system_with_two_periodic_directions
        (fun p => p) uq1 1 [0, 1] 0 3 2).result = .error .indexOutOfBounds :=
  ⟨rfl, rfl, rfl, rfl⟩

theorem vec_sub_apply {α : Type} [Sub α] (p q : Vec α) (k : Fin 3) :
    (p - q) k = p k - q k := rfl

theorem vec_add_apply {α : Type} [Add α] (p q : Vec α) (k : Fin 3) :
    (p + q) k = p k + q k := rfl

/-- Claim C3 (amended): in the tube pipeline the per-frame translation is the
current frame's solid-group centre of mass minus the solid-group anchor,
so subtracting it from every atom restores the solid centre of mass to the
anchor; in the slab pipeline the translation is instead the whole-system
centre of mass minus a whole-system anchor (source line 269 uses
`universe.atoms`, not the solid group), restoring the system — not the
solid — centre of mass. -/
theorem C3_translation_anchor
    (u : MDUniverse ℝ) (anchor : Vec ℝ) (fp : List (Vec ℝ))
    (hlen : u.atoms.length ≤ fp.length)
    (hm : ((solidIdx u).map (fun i => massOf u i)).sum ≠ 0)
    (uq : MDUniverse ℚ) (anchorq : Vec ℚ) (wq : List (Vec ℚ))
    (hlenq : uq.atoms.length ≤ wq.length)
    (hmq : ((allIdx uq).map (fun i => massOf uq i)).sum ≠ 0) :
    (tube_translation_from_frame0 u anchor fp
        = center_of_mass u (solidIdx u) fp - anchor
      ∧ center_of_mass u (solidIdx u)
          (fp.map (fun p => p - tube_translation_from_frame0 u anchor fp))
          = anchor)
    ∧ (slab_translation_from_frame0 uq anchorq wq
        = center_of_mass uq (allIdx uq) wq - anchorq
      ∧ center_of_mass uq (allIdx uq)
          (wq.map (fun p => p - slab_translation_from_frame0 uq anchorq wq))
          = anchorq) := by
  constructor
  · refine ⟨rfl, ?_⟩
    rw [center_of_mass_shift u (solidIdx u) fp _
      (fun i hi => lt_of_lt_of_le (select_atoms_mem_lt u _ i hi) hlen) hm]
    funext k
    show center_of_mass u (solidIdx u) fp k
        - (center_of_mass u (solidIdx u) fp k - anchor k) = anchor k
    ring
  · refine ⟨rfl, ?_⟩
    rw [center_of_mass_shift uq (allIdx uq) wq _
      (fun i hi => lt_of_lt_of_le (List.mem_range.mp hi) hlenq) hmq]
    funext k
    show center_of_mass uq (allIdx uq) wq k
        - (center_of_mass uq (allIdx uq) wq k - anchorq k) = anchorq k
    ring

/-- Witness for C3: concrete one-atom universes with nonzero group
masses. -/
theorem C3_translation_anchor_witness :
    (ur1.atoms.length ≤ ([fun _ => 0] : List (Vec ℝ)).length
      ∧ ((solidIdx ur1).map (fun i => massOf ur1 i)).sum ≠ 0
      ∧ uq2.atoms.length ≤ ([fun _ => 0, fun _ => 1] : List (Vec ℚ)).length
      ∧ ((allIdx uq2).map (fun i => massOf uq2 i)).sum ≠ 0)
    ∧ ((tube_translation_from_frame0 ur1 (fun _ => 0) [fun _ => 0]
          = center_of_mass ur1 (solidIdx ur1) [fun _ => 0] - ((fun _ => 0) : Vec ℝ)
        ∧ center_of_mass ur1 (solidIdx ur1)
            (([fun _ => 0] : List (Vec ℝ)).map
              (fun p => p - tube_translation_from_frame0 ur1 (fun _ => 0)
                [fun _ => 0]))
            = ((fun _ => 0) : Vec ℝ))
      ∧ (slab_translation_from_frame0 uq2 (fun _ => 0) [fun _ => 0, fun _ => 1]
          = center_of_mass uq2 (allIdx uq2) [fun _ => 0, fun _ => 1] - ((fun _ => 0) : Vec ℚ)
        ∧ center_of_mass uq2 (allIdx uq2)
            (([fun _ => 0, fun _ => 1] : List (Vec ℚ)).map
              (fun p => p - slab_translation_from_frame0 uq2 (fun _ => 0)
                [fun _ => 0, fun _ => 1]))
            = ((fun _ => 0) : Vec ℚ))) :=
  ⟨⟨le_refl 1, by show (12 : ℝ) + 0 ≠ 0; norm_num,
    le_refl 2, by show (12 : ℚ) + (16 + 0) ≠ 0; norm_num⟩,
   C3_translation_anchor ur1 (fun _ => 0) [fun _ => 0] (le_refl 1)
     (by show (12 : ℝ) + 0 ≠ 0; norm_num)
     uq2 (fun _ => 0) [fun _ => 0, fun _ => 1] (le_refl 2)
     (by show (12 : ℚ) + (16 + 0) ≠ 0; norm_num)⟩

/-- Claim C3 (counterexample): in the slab pipeline, at the second frame of
`uq2` (the oxygen moved 4 along x), the translation actually subtracted —
whole-system centre of mass minus the whole-system anchor, `16/7` along
x — differs from the claimed solid-group value `0`. -/
theorem C3_counterexample :
    slab_translation_from_frame0 uq2
        (center_of_mass uq2 (allIdx uq2) (uq2.trajectory.headD []))
        [fun _ => 0, fun k => if k = 0 then 4 else 0] 0
      ≠ (center_of_mass uq2 (solidIdx uq2)
          [fun _ => 0, fun k => if k = 0 then 4 else 0]
          - center_of_mass uq2 (solidIdx uq2) (uq2.trajectory.headD [])) 0 := by
  have hall : allIdx uq2 = [0, 1] := rfl
  have hsolid : solidIdx uq2 = [0] := rfl
  have h0 : uq2.trajectory.headD []
      = ([fun _ => 0, fun _ => 0] : List (Vec ℚ)) := rfl
  have m0 : massOf uq2 0 = 12 := rfl
  have m1 : massOf uq2 1 = 16 := rfl
  have p00 : posOf ([fun _ => 0, fun _ => 0] : List (Vec ℚ)) 0 = (fun _ => 0) := rfl
  have p01 : posOf ([fun _ => 0, fun _ => 0] : List (Vec ℚ)) 1 = (fun _ => 0) := rfl
  have p10 : posOf ([fun _ => 0, fun k => if k = 0 then 4 else 0] : List (Vec ℚ)) 0
      = (fun _ => 0) := rfl
  have p11 : posOf ([fun _ => 0, fun k => if k = 0 then 4 else 0] : List (Vec ℚ)) 1
      = (fun k => if k = 0 then 4 else 0) := rfl
  simp only [slab_translation_from_frame0, center_of_mass, vec_sub_apply, h0,
    hall, hsolid, List.map_cons, List.map_nil, List.sum_cons, List.sum_nil,
    m0, m1, p00, p01, p10, p11]
  norm_num

/-- Claim C4 (amended): in the slab pipeline (two periodic axes, one confined
axis `j`), a liquid atom is classified as in-contact exactly when its
*signed* confined-axis offset from the solid centre of mass is `≤` the
cutoff — a half-space, not a symmetric band: atoms arbitrarily far on the
negative side of the solid always qualify. -/
theorem C4_slab_contact_signed_halfspace {α : Type} [LinearOrderedField α]
    (cutoff : α) (j : Fin 3) (liquidPos : List (Vec α)) (com : Vec α) :
    slab_liquid_selection cutoff [j] liquidPos com
      = .ok (liquidPos.filter (fun p => decide (p j - com j ≤ cutoff))) := by
  have hcond : (np_where_le cutoff
      (liquidPos.map (fun p => p j - com j)) 0).all
        (fun i => decide (i < liquidPos.length)) = true := by
    rw [List.all_eq_true]
    intro i hi
    have hlt := np_where_le_lt cutoff (liquidPos.map (fun p => p j - com j))
      0 i hi
    simp only [List.length_map, Nat.zero_add] at hlt
    simpa using hlt
  simp only [slab_liquid_selection, List.map_cons, List.map_nil,
    list_join_map_singleton, hcond, if_true]
  rw [np_where_le_map_posOf cutoff (fun p => p j - com j) liquidPos
    liquidPos 0 rfl]

/-- The liquid atom of the C4 counterexample: 5 below the solid plane along
the confined axis `z`. -/
def vm5 : Vec ℚ := fun k => if k = 2 then -5 else 0

/-- Claim C4 (counterexample): with cutoff 1 and confined axis `z`, a liquid
atom at signed offset `-5` is selected as in-contact by the slab
classifier, although the magnitude of its confined offset, `5`, exceeds
the cutoff — the selected region is not the claimed symmetric band. -/
theorem C4_counterexample :
    slab_liquid_selection (1 : ℚ) [2] [vm5] (fun _ => 0) = .ok [vm5]
    ∧ ¬ (|vm5 2 - (fun _ : Fin 3 => (0 : ℚ)) 2| ≤ 1) := by
  constructor
  · norm_num [slab_liquid_selection, np_where_le, posOf, vm5]
  · norm_num [vm5]

theorem posOf_cons_zero {α : Type} [Zero α] (v : Vec α) (l : List (Vec α)) :
    posOf (v :: l) 0 = v := rfl

/-- The spec's reading of the tube per-frame translation (spec §4.2: the
wrap "must be invoked both before computing the translation and after any
rotation"): solid centre of mass of the *wrapped* current positions minus
the anchor.  Stated for comparison with `tube_translation_from_frame0`,
which the source computes from the unwrapped positions. -/
noncomputable def tube_translation_wrapped_first (wrap : Vec ℝ → Vec ℝ)
    (u : MDUniverse ℝ) (anchor : Vec ℝ) (fp : List (Vec ℝ)) : Vec ℝ :=
  center_of_mass u (solidIdx u) (fp.map wrap) - anchor

/-- Embeds `pack_into_box` for the unit orthorhombic box: each coordinate is
reduced modulo 1 into `[0, 1)`. -/
noncomputable def wrap_unit_box : Vec ℝ → Vec ℝ := fun p k => p k - ⌊p k⌋

/-- Claim C2 (amended): in the slab pipeline the periodic wrap is invoked
before the translation is computed (and again after it), but in the tube
pipeline the only wrap is the one applied after the rotation, as the final
step of the per-frame normalization — the translation there is computed
from the raw, unwrapped frame positions. -/
theorem C2_wrap_order
    (wrap : Vec ℝ → Vec ℝ) (rotmat : Vec ℝ → ℝ → Vec ℝ → Vec ℝ)
    (u : MDUniverse ℝ) (anchor : Vec ℝ) (anchorIds : List ℕ)
    (pbc : List (Fin 3)) (fp : List (Vec ℝ))
    (uq : MDUniverse ℚ) (wrapq : Vec ℚ → Vec ℚ) (anchorq : Vec ℚ)
    (fpq : List (Vec ℚ)) :
    (slab_normalized wrapq uq anchorq fpq
        = ((fpq.map wrapq).map
            (fun p => p - slab_translation_from_frame0 uq anchorq
              (fpq.map wrapq))).map wrapq)
    ∧ (tubeNormalize wrap rotmat u anchor anchorIds pbc fp
        = (tubeNormalize (fun p => p) rotmat u anchor anchorIds pbc fp).map
            wrap)
    ∧ (tube_translation_from_frame0 u anchor fp
        = center_of_mass u (solidIdx u) fp - anchor) := by
  refine ⟨rfl, ?_, rfl⟩
  simp [tubeNormalize]

/-- Claim C2 (counterexample): for the unit box and a frame whose solid atom
sits at `3/2`, the translation the tube pipeline actually computes (from
unwrapped positions, `3/2`) differs from the translation mandated by the
claim (from wrapped positions, `1/2`): the positions entering the tube
translation step are not wrapped. -/
theorem C2_counterexample :
    tube_translation_from_frame0 ur1 (fun _ => 0) [fun _ => 3/2] 0
      ≠ tube_translation_wrapped_first wrap_unit_box ur1 (fun _ => 0)
          [fun _ => 3/2] 0 := by
  have hsolid : solidIdx ur1 = [0] := rfl
  have hm : massOf ur1 0 = 12 := rfl
  have hfloor : (⌊(3/2 : ℝ)⌋ : ℤ) = 1 := by
    rw [Int.floor_eq_iff] <;> norm_num
  simp only [tube_translation_from_frame0, tube_translation_wrapped_first,
    center_of_mass, vec_sub_apply, hsolid, List.map_cons, List.map_nil,
    List.sum_cons, List.sum_nil, wrap_unit_box, posOf_cons_zero, hm, hfloor]
  norm_num

/-- Claim C7 (amended): whenever the reference axis is non-degenerate, the
normalized dot product fed to the inverse cosine is clamped to `[-1, 1]`,
and an axis aligned with the fixed direction `(1, 0)` (any positive
multiple of it) yields angle 0 rather than NaN; but a zero-magnitude axis
is *not* guarded — its `0/0` produces NaN (`none`), cf. the
counterexample. -/
theorem C7_angle_clamped_and_aligned_zero (a : ℝ × ℝ) (x : ℝ)
    (hna : Real.sqrt (a.1 ^ 2 + a.2 ^ 2) ≠ 0) (hx : 0 < x) :
    (∃ d, normed_dot_product a = some d ∧ -1 ≤ d ∧ d ≤ 1
      ∧ angle_anchor_first_axis a
          = some (if a.2 ≤ 0 then Real.arccos d else -Real.arccos d))
    ∧ angle_anchor_first_axis (x, 0) = some 0 := by
  constructor
  · refine ⟨min 1 (max (-1) (a.1 / Real.sqrt (a.1 ^ 2 + a.2 ^ 2))),
      ?_, ?_, ?_, ?_⟩
    · simp only [normed_dot_product, if_neg hna]
    · exact le_min (by norm_num) (le_max_left _ _)
    · exact min_le_left _ _
    · simp only [angle_anchor_first_axis, normed_dot_product, if_neg hna,
        Option.map_some']
  · have hnorm : Real.sqrt (x ^ 2 + 0 ^ 2) = x := by
      rw [show x ^ 2 + (0 : ℝ) ^ 2 = x ^ 2 by ring]
      exact Real.sqrt_sq hx.le
    have hd : normed_dot_product (x, 0) = some 1 := by
      simp only [normed_dot_product, hnorm]
      rw [if_neg hx.ne', div_self hx.ne']
      norm_num
    simp [angle_anchor_first_axis, hd, Real.arccos_one]

/-- Witness for C7: the concrete axis `(1, 0)`. -/
theorem C7_angle_clamped_and_aligned_zero_witness :
    (Real.sqrt ((1 : ℝ) ^ 2 + 0 ^ 2) ≠ 0 ∧ (0 : ℝ) < 1)
    ∧ ((∃ d, normed_dot_product ((1 : ℝ), 0) = some d ∧ -1 ≤ d ∧ d ≤ 1
        ∧ angle_anchor_first_axis ((1 : ℝ), 0)
            = some (if ((1 : ℝ), (0 : ℝ)).2 ≤ 0 then Real.arccos d
                else -Real.arccos d))
      ∧ angle_anchor_first_axis ((1 : ℝ), 0) = some 0) := by
  have h1 : Real.sqrt ((1 : ℝ) ^ 2 + 0 ^ 2) ≠ 0 := by
    rw [show (1 : ℝ) ^ 2 + 0 ^ 2 = 1 by norm_num, Real.sqrt_one]
    norm_num
  exact ⟨⟨h1, by norm_num⟩,
    C7_angle_clamped_and_aligned_zero (1, 0) 1 h1 (by norm_num)⟩

/-- Claim C7 (counterexample): a zero-magnitude reference axis is not
guarded: the `0/0` normalized dot product is IEEE NaN (modelled `none`)
and the rotation angle silently propagates it, contrary to the claimed
clamp-or-error handling. -/
theorem C7_counterexample :
    normed_dot_product ((0 : ℝ), 0) = none
    ∧ angle_anchor_first_axis ((0 : ℝ), 0) = none := by
  constructor <;>
    norm_num [normed_dot_product, angle_anchor_first_axis]

/-- Claim C8: in the tube pipeline the recorded contact offsets are exactly
those of the liquid atoms whose confined-axes offset from the solid centre
of mass has Euclidean norm `≥` the cutoff (and `normOver` over the two
confined axes is that Euclidean norm). -/
theorem C8_tube_contact_norm_ge (cutoff : ℝ) (npc : List (Fin 3))
    (liquidPos : List (Vec ℝ)) (com : Vec ℝ) :
    tube_liquid_selection cutoff npc liquidPos com
      = (liquidPos.filter
          (fun p => decide (cutoff ≤ normOver npc (p - com)))).map
        (fun p => p - com)
    ∧ ∀ (n0 n1 : Fin 3) (v : Vec ℝ),
        normOver [n0, n1] v = Real.sqrt (v n0 ^ 2 + v n1 ^ 2) := by
  constructor
  · unfold tube_liquid_selection
    exact list_filter_map_comm (fun p => p - com)
      (fun v => decide (cutoff ≤ normOver npc v)) liquidPos
  · intro n0 n1 v
    simp [normOver]

theorem atan2_zero_neg_one : atan2 0 (-1) = Real.pi := by
  have h : (⟨-1, 0⟩ : ℂ) = (-1 : ℂ) := by
    apply Complex.ext <;> simp
  rw [atan2, h, Complex.arg_neg_one]

theorem tubeProject_lengths (u : MDUniverse ℝ) (cutoff circ : ℝ) (p : Fin 3)
    (pos : List (Vec ℝ)) :
    (tubeProject u cutoff circ [p] pos).lc1.length
      = (tubeProject u cutoff circ [p] pos).lc2.length
    ∧ (tubeProject u cutoff circ [p] pos).sc1.length
      = (tubeProject u cutoff circ [p] pos).sc2.length := by
  constructor <;>
    simp only [tubeProject, List.map_cons, List.map_nil,
      list_join_map_singleton, List.length_map]

theorem tubeLoop_lengths (wrap : Vec ℝ → Vec ℝ)
    (rotmat : Vec ℝ → ℝ → Vec ℝ → Vec ℝ) (u : MDUniverse ℝ)
    (cutoff circ : ℝ) (anchor : Vec ℝ) (anchorIds : List ℕ) (p : Fin 3) :
    ∀ frames : List (List (Vec ℝ)),
      (tubeLoop wrap rotmat u cutoff circ anchor anchorIds [p]
          frames).lc1.length
        = (tubeLoop wrap rotmat u cutoff circ anchor anchorIds [p]
            frames).lc2.length
      ∧ (tubeLoop wrap rotmat u cutoff circ anchor anchorIds [p]
          frames).sc1.length
        = (tubeLoop wrap rotmat u cutoff circ anchor anchorIds [p]
            frames).sc2.length := by
  intro frames
  induction frames with
  | nil => exact ⟨rfl, rfl⟩
  | cons fp rest ih =>
    have hproj := tubeProject_lengths u cutoff circ p
      (tubeNormalize wrap rotmat u anchor anchorIds [p] fp)
    simp only [tubeLoop, List.length_append]
    exact ⟨by rw [hproj.1, ih.1], by rw [hproj.2, ih.2]⟩

/-- Claim C9 (amended): in the tube pipeline both the liquid and the solid
angular coordinates are computed by
`circ * (atan2 (v confined1) (v confined0) + π) / (2π)` on the atom's
offset `v` from the solid centre of mass, with
`circ = 2π * tube_radius`; for a positive radius the coordinate lies in
the half-open interval `(0, circ]` — not `[0, circ)`: the angle `π`
(offset on the negative first confined axis) maps to `circ` itself, and 0
is never attained. -/
theorem C9_angular_unrolling (u : MDUniverse ℝ) (cutoff r : ℝ)
    (pbc : List (Fin 3)) (pos : List (Vec ℝ)) (hr : 0 < r) :
    ((tubeProject u cutoff (2 * Real.pi * r) pbc pos).lc2
        = (tube_liquid_selection cutoff (not_pbc_indices pbc)
            ((liquidTubeIdx u).map (posOf pos))
            (center_of_mass u (solidIdx u) pos)).map
          (fun v => angular_component (2 * Real.pi * r)
            (not_pbc_indices pbc) v))
    ∧ ((tubeProject u cutoff (2 * Real.pi * r) pbc pos).sc2
        = ((solidIdx u).map (posOf pos)).map
          (fun q => angular_component (2 * Real.pi * r)
            (not_pbc_indices pbc)
            (q - center_of_mass u (solidIdx u) pos)))
    ∧ (∀ (npc : List (Fin 3)) (v : Vec ℝ),
        angular_component (2 * Real.pi * r) npc v
          = 2 * Real.pi * r
            * (atan2 (v (npc.getD 1 0)) (v (npc.getD 0 0)) + Real.pi)
            / (2 * Real.pi))
    ∧ (∀ (npc : List (Fin 3)) (v : Vec ℝ),
        0 < angular_component (2 * Real.pi * r) npc v
        ∧ angular_component (2 * Real.pi * r) npc v ≤ 2 * Real.pi * r) := by
  refine ⟨rfl, rfl, fun npc v => rfl, fun npc v => ?_⟩
  have hθ₁ : -Real.pi < atan2 (v (npc.getD 1 0)) (v (npc.getD 0 0)) :=
    Complex.neg_pi_lt_arg ⟨v (npc.getD 0 0), v (npc.getD 1 0)⟩
  have hθ₂ : atan2 (v (npc.getD 1 0)) (v (npc.getD 0 0)) ≤ Real.pi :=
    Complex.arg_le_pi ⟨v (npc.getD 0 0), v (npc.getD 1 0)⟩
  have hval : angular_component (2 * Real.pi * r) npc v
      = r * (atan2 (v (npc.getD 1 0)) (v (npc.getD 0 0)) + Real.pi) := by
    unfold angular_component
    rw [div_eq_iff (by positivity : (2 * Real.pi : ℝ) ≠ 0)]
    ring
  constructor
  · rw [hval]
    exact mul_pos hr (by linarith)
  · rw [hval]
    nlinarith [mul_le_mul_of_nonneg_left hθ₂ hr.le, Real.pi_pos]

/-- Witness for C9: radius 1 on the one-atom universe. -/
theorem C9_angular_unrolling_witness :
    (0 : ℝ) < 1
    ∧ (∀ (npc : List (Fin 3)) (v : Vec ℝ),
        0 < angular_component (2 * Real.pi * 1) npc v
        ∧ angular_component (2 * Real.pi * 1) npc v ≤ 2 * Real.pi * 1) :=
  ⟨by norm_num,
   (C9_angular_unrolling ur1 1 1 [2] [fun _ => 0] (by norm_num)).2.2.2⟩

/-- The second frame-position of the C9 counterexample universe. -/
def v2x : Vec ℝ := fun k => if k = 0 then 2 else 0

/-- Two equal-mass solid boron atoms on the x axis, one frame. -/
def ur2 : MDUniverse ℝ := ⟨[⟨.B, 1⟩, ⟨.B, 1⟩], [[fun _ => 0, v2x]]⟩

/-- Claim C9 (counterexample): with tube radius 1 (`circ = 2π`), the solid
atom at confined offset `(-1, 0)` from the solid centre of mass has
`atan2 = π` and its recorded angular coordinate equals `2π = circ`, which
does not lie in the claimed interval `[0, circ)`. -/
theorem C9_counterexample :
    2 * Real.pi * 1 ∈ (tubeProject ur2 1 (2 * Real.pi * 1) [2]
        [fun _ => 0, v2x]).sc2
    ∧ ¬ (2 * Real.pi * 1 ∈ Set.Ico (0 : ℝ) (2 * Real.pi * 1)) := by
  have hsolid : solidIdx ur2 = [0, 1] := rfl
  have hnpc : not_pbc_indices [2] = [0, 1] := rfl
  have hm0 : massOf ur2 0 = 1 := rfl
  have hm1 : massOf ur2 1 = 1 := rfl
  have hp0 : posOf ([fun _ => 0, v2x] : List (Vec ℝ)) 0 = (fun _ => 0) := rfl
  have hp1 : posOf ([fun _ => 0, v2x] : List (Vec ℝ)) 1 = v2x := rfl
  have hcom : ∀ k : Fin 3,
      center_of_mass ur2 (solidIdx ur2) [fun _ => 0, v2x] k
        = (if k = 0 then 1 else 0) := by
    intro k
    simp only [center_of_mass, hsolid, List.map_cons, List.map_nil,
      List.sum_cons, List.sum_nil, hm0, hm1, hp0, hp1, v2x]
    by_cases hk : k = 0
    · subst hk; norm_num
    · simp [hk]
  have hoff0 : (((fun _ => 0) : Vec ℝ) - center_of_mass ur2 (solidIdx ur2)
      [fun _ => 0, v2x]) 0 = -1 := by
    rw [Pi.sub_apply, hcom 0]; norm_num
  have hoff1 : (((fun _ => 0) : Vec ℝ) - center_of_mass ur2 (solidIdx ur2)
      [fun _ => 0, v2x]) 1 = 0 := by
    rw [Pi.sub_apply, hcom 1]; norm_num
  have hfirst : angular_component (2 * Real.pi * 1) (not_pbc_indices [2])
      ((fun _ => 0) - center_of_mass ur2 (solidIdx ur2) [fun _ => 0, v2x])
      = 2 * Real.pi * 1 := by
    show 2 * Real.pi * 1
        * (atan2 ((((fun _ => 0) : Vec ℝ) - center_of_mass ur2 (solidIdx ur2)
              [fun _ => 0, v2x]) 1)
            ((((fun _ => 0) : Vec ℝ) - center_of_mass ur2 (solidIdx ur2)
              [fun _ => 0, v2x]) 0) + Real.pi) / (2 * Real.pi)
        = 2 * Real.pi * 1
    rw [hoff0, hoff1, atan2_zero_neg_one,
      div_eq_iff (by positivity : (2 * Real.pi : ℝ) ≠ 0)]
    ring
  constructor
  · show 2 * Real.pi * 1 ∈
      (((solidIdx ur2).map
        (posOf ([fun _ => 0, v2x] : List (Vec ℝ)))).map
          (fun q => angular_component (2 * Real.pi * 1) (not_pbc_indices [2])
            (q - center_of_mass ur2 (solidIdx ur2) [fun _ => 0, v2x])))
    rw [show ((solidIdx ur2).map
        (posOf ([fun _ => 0, v2x] : List (Vec ℝ))))
        = [fun _ => 0, v2x] from rfl]
    simp only [List.map_cons, List.map_nil]
    rw [hfirst]
    exact List.mem_cons_self _ _
  · simp [Set.mem_Ico]

theorem run_ok_of_lengths (o : TubeFrameOut) (n : ℕ)
    (h1 : o.lc1.length = o.lc2.length) (h2 : o.sc1.length = o.sc2.length) :
    ∃ out,
      (match np_column_stack o.lc1 o.lc2, np_column_stack o.sc1 o.sc2 with
        | some l2, some s2 => (⟨n, .ok (l2, s2)⟩ : RunOutcome ℝ)
        | _, _ => ⟨n, .error .shapeMismatch⟩).result = .ok out := by
  rw [show np_column_stack o.lc1 o.lc2 = some (o.lc1.zip o.lc2) by
        simp [np_column_stack, h1],
      show np_column_stack o.sc1 o.sc2 = some (o.sc1.zip o.sc2) by
        simp [np_column_stack, h2]]
  exact ⟨_, rfl⟩

/-- Claim C10: in the tube pipeline, with one periodic axis, every frame
appends equally many values to the liquid axial and angular accumulators
(and likewise for the two solid accumulators, both counts deriving from
the same selection/solid group), so the final `np.column_stack` calls
always succeed: a run that reaches the frame loop — nonempty solid group,
both tube parameters present, nonzero stride — returns the two 2-column
arrays. -/
theorem C10_accumulators_and_stacking
    (wrap : Vec ℝ → Vec ℝ) (rotmat : Vec ℝ → ℝ → Vec ℝ → Vec ℝ)
    (u : MDUniverse ℝ) (cutoff circ r : ℝ) (L : ℕ) (p : Fin 3)
    (s e f : ℕ) (hf : f ≠ 0) (hs : solidIdx u ≠ []) :
    (∀ pos : List (Vec ℝ),
        (tubeProject u cutoff circ [p] pos).lc1.length
          = (tubeProject u cutoff circ [p] pos).lc2.length
      ∧ (tubeProject u cutoff circ [p] pos).sc1.length
          = (tubeProject u cutoff circ [p] pos).sc2.length)
    ∧ ∃ out, (compute_distribution_for_system_with_one_periodic_direction
        wrap rotmat u cutoff (some r) (some L) [p] s e f).result
          = .ok out := by
  constructor
  · intro pos
    exact tubeProject_lengths u cutoff circ p pos
  · obtain ⟨i, t, hst⟩ := List.exists_cons_of_ne_nil hs
    simp only [compute_distribution_for_system_with_one_periodic_direction,
      hst, List.map_cons, get_atom_ids_on_same_tube_axis, if_neg hf]
    exact run_ok_of_lengths _ _
      (tubeLoop_lengths _ _ _ _ _ _ _ _ _).1
      (tubeLoop_lengths _ _ _ _ _ _ _ _ _).2

/-- Witness for C10: a concrete tube run with one periodic axis, a
one-atom solid group, both tube parameters present, and stride 1. -/
theorem C10_accumulators_and_stacking_witness :
    ((1 : ℕ) ≠ 0 ∧ solidIdx ur1 ≠ [])
    ∧ ∃ out, (compute_distribution_for_system_with_one_periodic_direction
        (fun p => p) (fun _ _ p => p) ur1 1 (some 1) (some 1) [2]
        0 1 1).result = .ok out :=
  ⟨⟨one_ne_zero, by decide⟩,
   (C10_accumulators_and_stacking (fun p => p) (fun _ _ p => p) ur1 1 1 1 1 2
     0 1 1 one_ne_zero (by decide)).2⟩
